import Mathlib

/-!
# vault_secret_backend: a verification development

A shallow embedding of `vault/resource_secret_backend.go`, the Terraform
resource that manages a secret backend mount of a Vault server, and theorems
about its lifecycle handlers.

* Go strings are Lean strings; the byte-level library calls the source makes
  (`strings.Trim`, `strings.HasSuffix`, `fmt.Sprintf`) are written over the
  character list of the string. The only cut byte is the ASCII slash, which
  occurs in UTF-8 text only as the character slash.
* `schema.ResourceData` is a record of the identity and of the five attributes
  of the schema. `d.Get` and `d.Set` are field access and field update.
* `api.Client` is a record of the four remote calls the handlers make, over an
  arbitrary type of remote states. A remote call either fails with the text of
  its error or succeeds.
* A handler returns the resource data and the remote state it leaves, and its
  Go `error` as an `Option String` (`none` is `nil`).
* The verb `%q` of the error messages (`strconv.Quote`) is the parameter `q`
  of the handlers; the theorems hold for every `q`.
* `log.Printf` lines are not modelled: they change neither the resource data
  nor the remote.
-/

namespace Vault

/-! ## Go library calls used by the source -/

/-- Go `strings.HasSuffix(s, suffix)`. -/
def hasSuffix (s suffix : String) : Bool :=
  suffix.data.isSuffixOf s.data

/-- Go `trimRightByte(s, c)`: drop every trailing `c`. -/
def trimRightByte (s : List Char) (c : Char) : List Char :=
  (s.reverse.dropWhile (fun x => x == c)).reverse

/-- Go `trimLeftByte(s, c)`: drop every leading `c`. -/
def trimLeftByte (s : List Char) (c : Char) : List Char :=
  s.dropWhile (fun x => x == c)

/-- Go `strings.Trim(s, cutset)` for a cutset of one ASCII byte `c`, which the
library computes as `trimLeftByte(trimRightByte(s, c), c)`. -/
def stringsTrim (s : String) (c : Char) : String :=
  ⟨trimLeftByte (trimRightByte s.data c) c⟩

/-- Go `%d` applied to an `int`: a minus sign for a negative number, then the
decimal digits of the magnitude. -/
def fmtInteger (n : Int) : String :=
  if n < 0 then "-" ++ Nat.repr n.natAbs else Nat.repr n.natAbs

/-! ## Data model -/

/-- The fields of `api.MountConfigInput` the source fills. -/
structure MountConfigInput where
  DefaultLeaseTTL : String
  MaxLeaseTTL : String
  deriving DecidableEq, Repr

/-- The fields of `api.MountInput` the source fills (`Type_` is the Go field `Type`). -/
structure MountInput where
  Type_ : String
  Description : String
  Config : MountConfigInput
  deriving DecidableEq, Repr

/-- The fields of `api.MountConfigOutput` the source reads. -/
structure MountConfigOutput where
  DefaultLeaseTTL : Int
  MaxLeaseTTL : Int
  deriving DecidableEq, Repr

/-- The fields of `api.MountOutput` the source reads (`Type_` is the Go field `Type`). -/
structure MountOutput where
  Type_ : String
  Description : String
  Config : MountConfigOutput
  deriving DecidableEq, Repr

/-- The result of `ListMounts`: a Go `map[string]*MountOutput`, as an
association list read with `List.lookup`. -/
abbrev Mounts := List (String × MountOutput)

/-- The `schema.ResourceData` for the schema of `secretBackendResource`: the
identity (`d.Id()`) and the five declared attributes. -/
structure ResourceData where
  id : String
  type : String
  path : String
  description : String
  default_lease_ttl_seconds : Int
  max_lease_ttl_seconds : Int
  deriving DecidableEq, Repr

/-- A configuration block of the resource. `type` is `Required`; the other
four attributes are `Optional` and may be omitted. -/
structure Config where
  type : String
  path : Option String
  description : Option String
  default_lease_ttl_seconds : Option Int
  max_lease_ttl_seconds : Option Int
  deriving DecidableEq, Repr

/-- The resource data a create starts from: no identity yet, and `d.Get` of
an attribute that the configuration omits is the zero value of its type (the
schema declares no `Default` for any attribute). -/
def ResourceData.ofConfig (cfg : Config) : ResourceData :=
  { id := ""
    type := cfg.type
    path := cfg.path.getD ""
    description := cfg.description.getD ""
    default_lease_ttl_seconds := cfg.default_lease_ttl_seconds.getD 0
    max_lease_ttl_seconds := cfg.max_lease_ttl_seconds.getD 0 }

/-- The state `schema.ImportStatePassthrough` hands to read: the identity
given to the import, and no attribute. -/
def ResourceData.imported (id : String) : ResourceData :=
  { id := id
    type := ""
    path := ""
    description := ""
    default_lease_ttl_seconds := 0
    max_lease_ttl_seconds := 0 }

/-- The calls of `client.Sys()` the handlers make, over remote states `σ`. -/
structure Client (σ : Type) where
  Mount : String → MountInput → σ → Except String σ
  ListMounts : σ → Except String Mounts
  TuneMount : String → MountConfigInput → σ → Except String σ
  Unmount : String → σ → Except String σ

/-- What a handler leaves: the resource data, the remote state, and the
returned `error`. -/
structure Outcome (σ : Type) where
  d : ResourceData
  remote : σ
  err : Option String

/-! ## The resource -/

/-- The `ValidateFunc` of the `path` attribute: the warnings and the errors it
returns. -/
def pathValidateFunc (value : String) : List String × List String :=
  let ws : List String := []
  let errs : List String := []
  if hasSuffix value "/" then
    (ws, errs ++ ["path cannot end in '/'"])
  else
    (ws, errs)

/-- The `DiffSuppressFunc` of the `path` attribute. -/
def pathDiffSuppressFunc (old new : String) : Bool :=
  old ++ "/" == new || new ++ "/" == old

/-- Source function `secretBackendMountConfigInput`. -/
def secretBackendMountConfigInput (d : ResourceData) : MountConfigInput :=
  { DefaultLeaseTTL := fmtInteger d.default_lease_ttl_seconds ++ "s"
    MaxLeaseTTL := fmtInteger d.max_lease_ttl_seconds ++ "s" }

/-- The key under which read and exists look a mount up:
`strings.Trim(path, "/")+"/"`. -/
def lookupKey (path : String) : String :=
  stringsTrim path '/' ++ "/"

/-- Source function `secretBackendRead`. The parameter `q` is Go's `%q`
(`strconv.Quote`), which the source applies to the names it puts in messages. -/
def secretBackendRead {σ : Type} (q : String → String) (client : Client σ)
    (d : ResourceData) (s : σ) : Outcome σ :=
  let path := d.id
  match client.ListMounts s with
  | .error err =>
    { d := d, remote := s, err := some ("Error reading mount " ++ q path ++ ": " ++ err) }
  | .ok mounts =>
    match mounts.lookup (lookupKey path) with
    | none =>
      { d := { d with id := "" }, remote := s, err := none }
    | some mount =>
      { d := { d with
                path := path
                type := mount.Type_
                description := mount.Description
                default_lease_ttl_seconds := mount.Config.DefaultLeaseTTL
                max_lease_ttl_seconds := mount.Config.MaxLeaseTTL }
        remote := s
        err := none }

/-- Source function `secretBackendCreate`. -/
def secretBackendCreate {σ : Type} (q : String → String) (client : Client σ)
    (d : ResourceData) (s : σ) : Outcome σ :=
  let name := d.type
  let path := d.path
  let description := d.description
  match client.Mount path
      { Type_ := name, Description := description, Config := secretBackendMountConfigInput d } s with
  | .error err =>
    { d := d, remote := s
      err := some ("Error mounting " ++ q name ++ " secret backend to " ++ q path ++ ": " ++ err) }
  | .ok s1 =>
    secretBackendRead q client { d with id := path } s1

/-- Source function `secretBackendUpdate`. -/
def secretBackendUpdate {σ : Type} (q : String → String) (client : Client σ)
    (d : ResourceData) (s : σ) : Outcome σ :=
  let path := d.id
  match client.TuneMount path (secretBackendMountConfigInput d) s with
  | .error err =>
    { d := d, remote := s
      err := some ("Error updating mount TTLs for " ++ q path ++ ": " ++ err) }
  | .ok s1 =>
    secretBackendRead q client d s1

/-- Source function `secretBackendDelete`. -/
def secretBackendDelete {σ : Type} (q : String → String) (client : Client σ)
    (d : ResourceData) (s : σ) : Outcome σ :=
  let path := d.id
  match client.Unmount path s with
  | .error err =>
    { d := d, remote := s
      err := some ("Error unmounting secret backend from " ++ q path ++ ": " ++ err) }
  | .ok s1 =>
    { d := d, remote := s1, err := none }

/-- Source function `secretBackendExists`: the boolean and the `error` it returns. -/
def secretBackendExists {σ : Type} (client : Client σ) (d : ResourceData) (s : σ) :
    Bool × Option String :=
  let path := d.id
  match client.ListMounts s with
  | .error err =>
    (true, some ("Error retrieving list of mounts: " ++ err))
  | .ok mounts =>
    ((mounts.lookup (lookupKey path)).isSome, none)

/-! ## The remote

The Vault server is outside the repository. The round-trip properties are
stated for every client whose remote keeps a mount registry: a mount request
stores the type, the description and the lease TTLs under the path with a
trailing slash, a tune request replaces the TTLs of that entry, and a TTL sent
as the string `<n>s` is read back as `n` seconds (`StoresMounts`,
`AppliesTunes`). The path of a request is a segment of the URL
`/v1/sys/mounts/<path>`: slashes around it do not reach the registry, which
lists the mount under the path itself followed by one slash (`mountKey`).
`registryClient` is one such remote; it also keeps the list of the changing
requests it received. -/

/-- The decimal value of a list of digit characters. -/
def digitsValue (cs : List Char) : Nat :=
  cs.foldl (fun acc c => acc * 10 + (c.toNat - 48)) 0

/-- Read a non-empty list of decimal digits. -/
def parseNat (cs : List Char) : Option Nat :=
  if cs ≠ [] ∧ cs.all Char.isDigit then some (digitsValue cs) else none

/-- Read a decimal integer with an optional leading minus sign. -/
def parseInt (cs : List Char) : Option Int :=
  match cs with
  | [] => none
  | c :: ds =>
    if c = '-' then
      match parseNat ds with
      | some k => some (- Int.ofNat k)
      | none => none
    else
      match parseNat (c :: ds) with
      | some k => some (Int.ofNat k)
      | none => none

/-- The remote reads the duration string `<n>s` as `n` seconds. -/
def parseSeconds (s : String) : Option Int :=
  match s.data.reverse with
  | [] => none
  | c :: rest => if c = 's' then parseInt rest.reverse else none

/-- The registry key of a mount path: the path, without the slashes around
it, with a trailing slash. -/
def mountKey (path : String) : String :=
  stringsTrim path '/' ++ "/"

/-- The remote stores mounts: after a mount request that succeeds, the list
shows, under the path with a trailing slash, the type and the description of
the request and its two TTLs, each string `<n>s` read as `n` seconds. -/
def StoresMounts {σ : Type} (client : Client σ) : Prop :=
  ∀ (path : String) (input : MountInput) (s s1 : σ),
    client.Mount path input s = .ok s1 →
    ∃ (mounts : Mounts) (dflt mx : Int),
      client.ListMounts s1 = .ok mounts ∧
      parseSeconds input.Config.DefaultLeaseTTL = some dflt ∧
      parseSeconds input.Config.MaxLeaseTTL = some mx ∧
      mounts.lookup (mountKey path)
        = some { Type_ := input.Type_, Description := input.Description,
                 Config := { DefaultLeaseTTL := dflt, MaxLeaseTTL := mx } }

/-- The remote applies tunes: after a tune request that succeeds, the list
shows the mount stored under the path with a trailing slash with its type and
description as before and with the two TTLs of the request, each string `<n>s`
read as `n` seconds. -/
def AppliesTunes {σ : Type} (client : Client σ) : Prop :=
  ∀ (path : String) (config : MountConfigInput) (s s1 : σ) (mounts : Mounts)
    (mount : MountOutput),
    client.ListMounts s = .ok mounts →
    mounts.lookup (mountKey path) = some mount →
    client.TuneMount path config s = .ok s1 →
    ∃ (mounts1 : Mounts) (dflt mx : Int),
      client.ListMounts s1 = .ok mounts1 ∧
      parseSeconds config.DefaultLeaseTTL = some dflt ∧
      parseSeconds config.MaxLeaseTTL = some mx ∧
      mounts1.lookup (mountKey path)
        = some { Type_ := mount.Type_, Description := mount.Description,
                 Config := { DefaultLeaseTTL := dflt, MaxLeaseTTL := mx } }

/-- A request that changes the registry. -/
inductive Request where
  | mount (path : String) (input : MountInput)
  | tune (path : String) (config : MountConfigInput)
  | unmount (path : String)
  deriving DecidableEq, Repr

/-- The state of the reference remote: the mount table, and the changing
requests received so far, oldest first. -/
structure Registry where
  mounts : Mounts
  requests : List Request
  deriving DecidableEq, Repr

/-- The registry with no mount. -/
def Registry.empty : Registry :=
  { mounts := [], requests := [] }

/-- Mount request: rejected when the path is already mounted or a TTL is not
of the form `<n>s`; otherwise the mount is stored under its key. -/
def Registry.mount (path : String) (input : MountInput) (r : Registry) :
    Except String Registry :=
  match parseSeconds input.Config.DefaultLeaseTTL, parseSeconds input.Config.MaxLeaseTTL with
  | some dflt, some mx =>
    match r.mounts.lookup (mountKey path) with
    | some _ => .error ("existing mount at " ++ mountKey path)
    | none =>
      .ok { mounts :=
              (mountKey path,
                { Type_ := input.Type_, Description := input.Description,
                  Config := { DefaultLeaseTTL := dflt, MaxLeaseTTL := mx } }) :: r.mounts
            requests := r.requests ++ [Request.mount path input] }
  | _, _ => .error "invalid lease TTL"

/-- Replace the TTL configuration of every entry stored under `key`. -/
def retune (key : String) (cfg : MountConfigOutput) : Mounts → Mounts
  | [] => []
  | (k, m) :: rest =>
    if k = key then (k, { m with Config := cfg }) :: retune key cfg rest
    else (k, m) :: retune key cfg rest

/-- Tune request: rejected when nothing is mounted at the path or a TTL is not
of the form `<n>s`; otherwise only the TTLs of the mount change. -/
def Registry.tune (path : String) (config : MountConfigInput) (r : Registry) :
    Except String Registry :=
  match parseSeconds config.DefaultLeaseTTL, parseSeconds config.MaxLeaseTTL with
  | some dflt, some mx =>
    match r.mounts.lookup (mountKey path) with
    | none => .error ("no mount at " ++ mountKey path)
    | some _ =>
      .ok { mounts := retune (mountKey path) { DefaultLeaseTTL := dflt, MaxLeaseTTL := mx } r.mounts
            requests := r.requests ++ [Request.tune path config] }
  | _, _ => .error "invalid lease TTL"

/-- Unmount request: rejected when nothing is mounted at the path; otherwise
the mount is removed. -/
def Registry.unmount (path : String) (r : Registry) : Except String Registry :=
  match r.mounts.lookup (mountKey path) with
  | none => .error ("no mount at " ++ mountKey path)
  | some _ =>
    .ok { mounts := r.mounts.filter (fun e => e.1 != mountKey path)
          requests := r.requests ++ [Request.unmount path] }

/-- The reference remote as a client. -/
def registryClient : Client Registry :=
  { Mount := Registry.mount
    ListMounts := fun r => .ok r.mounts
    TuneMount := Registry.tune
    Unmount := Registry.unmount }

/-- A remote that cannot be reached: every call fails with the error `e`. -/
def unreachableClient (e : String) : Client Unit :=
  { Mount := fun _ _ _ => .error e
    ListMounts := fun _ => .error e
    TuneMount := fun _ _ _ => .error e
    Unmount := fun _ _ => .error e }

/-- Go `%q` on a string of printable characters without quote or backslash:
the string between double quotes. -/
def quotePlain (s : String) : String :=
  String.singleton (Char.ofNat 34) ++ s ++ String.singleton (Char.ofNat 34)

/-- The message `msg` contains the text `part`. -/
def mentions (msg part : String) : Prop :=
  List.IsInfix part.data msg.data

instance (msg part : String) : Decidable (mentions msg part) :=
  inferInstanceAs (Decidable ( List.IsInfix part.data msg.data))

/-- The configuration of the acceptance test `testAccSecretBackendConfig_basic`. -/
def basicConfig (path : String) : Config :=
  { type := "ssh"
    path := some path
    description := some "test description"
    default_lease_ttl_seconds := some 3600
    max_lease_ttl_seconds := some 86400 }


/-! ## Lemmas on the library calls -/

theorem hasSuffix_slash_iff_getLast (s : String) :
    hasSuffix s "/" = true ↔ s.data.getLast? = some '/' := by
  unfold hasSuffix
  rw [List.isSuffixOf_iff_suffix]
  constructor
  · rintro ⟨t, ht⟩
    rw [← ht]
    simp
  · intro h
    rcases List.getLast?_eq_some_iff.mp h with ⟨t, ht⟩
    exact ⟨t, by rw [ht]⟩

theorem hasSuffix_slash_iff (s : String) :
    hasSuffix s "/" = true ↔ ∃ t : String, s = t ++ "/" := by
  unfold hasSuffix
  rw [List.isSuffixOf_iff_suffix]
  constructor
  · rintro ⟨t, ht⟩
    refine ⟨⟨t⟩, ?_⟩
    apply String.ext
    rw [String.data_append, ← ht]
  · rintro ⟨t, rfl⟩
    exact ⟨t.data, by rw [String.data_append]⟩

theorem trimLeftByte_eq_self (l : List Char) (c : Char) (h : l.head? ≠ some c) :
    trimLeftByte l c = l := by
  cases l with
  | nil => rfl
  | cons a t =>
    have hne : a ≠ c := fun e => h (by simp [e])
    have hb : (a == c) = false := by simpa using hne
    simp [trimLeftByte, List.dropWhile, hb]

theorem trimRightByte_eq_self (l : List Char) (c : Char) (h : l.getLast? ≠ some c) :
    trimRightByte l c = l := by
  have h2 : l.reverse.head? ≠ some c := by simpa using h
  have := trimLeftByte_eq_self l.reverse c h2
  unfold trimLeftByte at this
  unfold trimRightByte
  rw [this, List.reverse_reverse]

theorem stringsTrim_eq_self (s : String) (c : Char)
    (hhead : s.data.head? ≠ some c) (hlast : s.data.getLast? ≠ some c) :
    stringsTrim s c = s := by
  unfold stringsTrim
  rw [trimRightByte_eq_self _ _ hlast, trimLeftByte_eq_self _ _ hhead]

theorem getLast?_of_dropWhile (p : Char → Bool) (x : Char) :
    ∀ l : List Char, (l.dropWhile p).getLast? = some x → l.getLast? = some x := by
  intro l
  induction l with
  | nil => intro h; exact h
  | cons a t ih =>
    intro h
    cases hp : p a with
    | true =>
      rw [List.dropWhile_cons_of_pos hp] at h
      have ht := ih h
      cases t with
      | nil => simp at ht
      | cons b u => simpa [List.getLast?_cons_cons] using ht
    | false =>
      have hp2 : ¬ p a = true := by simp [hp]
      rw [List.dropWhile_cons_of_neg hp2] at h
      exact h

theorem head?_dropWhile_false (p : Char → Bool) (x : Char) :
    ∀ l : List Char, (l.dropWhile p).head? = some x → p x = false := by
  intro l
  induction l with
  | nil => intro h; simp at h
  | cons a t ih =>
    intro h
    cases hp : p a with
    | true =>
      rw [List.dropWhile_cons_of_pos hp] at h
      exact ih h
    | false =>
      have hp2 : ¬ p a = true := by simp [hp]
      rw [List.dropWhile_cons_of_neg hp2] at h
      have hax : a = x := by simpa using h
      rw [← hax]
      exact hp

theorem head?_dropWhile_ne (c : Char) (l : List Char) :
    (l.dropWhile (fun x => x == c)).head? ≠ some c := by
  intro h
  have := head?_dropWhile_false (fun x => x == c) c l h
  simp at this

theorem stringsTrim_spec (s : String) (c : Char) :
    (stringsTrim s c).data.head? ≠ some c ∧ (stringsTrim s c).data.getLast? ≠ some c := by
  refine ⟨head?_dropWhile_ne c _, ?_⟩
  intro h
  have h1 : (trimRightByte s.data c).getLast? = some c :=
    getLast?_of_dropWhile _ c _ h
  have h2 : (s.data.reverse.dropWhile (fun x => x == c)).head? = some c := by
    simpa [trimRightByte] using h1
  exact head?_dropWhile_ne c _ h2

theorem lookupKey_spec (path : String) :
    ∃ t : String, lookupKey path = t ++ "/" ∧ hasSuffix t "/" = false ∧
      t.data.head? ≠ some '/' := by
  refine ⟨stringsTrim path '/', rfl, ?_, (stringsTrim_spec path '/').1⟩
  cases h : hasSuffix (stringsTrim path '/') "/" with
  | false => rfl
  | true =>
    exact absurd ((hasSuffix_slash_iff_getLast _).mp h) (stringsTrim_spec path '/').2

theorem hasSuffix_lookupKey (path : String) : hasSuffix (lookupKey path) "/" = true :=
  (hasSuffix_slash_iff _).mpr ⟨_, rfl⟩

theorem lookupKey_eq_mountKey (path : String) : lookupKey path = mountKey path :=
  rfl

theorem mountKey_of_no_slash (path : String) (hhead : path.data.head? ≠ some '/')
    (hlast : hasSuffix path "/" = false) : mountKey path = path ++ "/" := by
  have hl : path.data.getLast? ≠ some '/' := by
    intro h
    rw [(hasSuffix_slash_iff_getLast path).mpr h] at hlast
    exact Bool.noConfusion hlast
  rw [mountKey, stringsTrim_eq_self path '/' hhead hl]

/-! ## Lemmas on the decimal rendering -/

theorem digitChar_isDigit : ∀ k : Nat, k < 10 →
    (Nat.digitChar k).isDigit = true ∧ (Nat.digitChar k).toNat - 48 = k ∧ Nat.digitChar k ≠ '-' := by
  decide

theorem digitsValue_concat (xs : List Char) (c : Char) :
    digitsValue (xs ++ [c]) = digitsValue xs * 10 + (c.toNat - 48) := by
  simp [digitsValue, List.foldl_append]

theorem toDigitsCore_spec : ∀ (fuel n : Nat) (ds : List Char), n < fuel →
    ∃ xs : List Char, Nat.toDigitsCore 10 fuel n ds = xs ++ ds ∧ xs ≠ [] ∧
      (∀ c ∈ xs, c.isDigit = true ∧ c ≠ '-') ∧ digitsValue xs = n := by
  intro fuel
  induction fuel with
  | zero => intro n ds h; omega
  | succ fuel ih =>
    intro n ds h
    have hd := digitChar_isDigit (n % 10) (Nat.mod_lt _ (by decide))
    by_cases h0 : n / 10 = 0
    · refine ⟨[Nat.digitChar (n % 10)], ?_, by simp, ?_, ?_⟩
      · simp [Nat.toDigitsCore, h0]
      · intro c hc
        simp only [List.mem_singleton] at hc
        subst hc
        exact ⟨hd.1, hd.2.2⟩
      · have : digitsValue [Nat.digitChar (n % 10)] = (Nat.digitChar (n % 10)).toNat - 48 := by
          simp [digitsValue]
        rw [this, hd.2.1]
        omega
    · have hlt : n / 10 < fuel := by omega
      obtain ⟨xs, hxs, _, hdig, hval⟩ := ih (n / 10) (Nat.digitChar (n % 10) :: ds) hlt
      refine ⟨xs ++ [Nat.digitChar (n % 10)], ?_, by simp, ?_, ?_⟩
      · simp [Nat.toDigitsCore, h0, hxs]
      · intro c hc
        rcases List.mem_append.mp hc with hc | hc
        · exact hdig c hc
        · simp only [List.mem_singleton] at hc
          subst hc
          exact ⟨hd.1, hd.2.2⟩
      · rw [digitsValue_concat, hval, hd.2.1]
        omega

theorem repr_spec (n : Nat) :
    (Nat.repr n).data ≠ [] ∧ (∀ c ∈ (Nat.repr n).data, c.isDigit = true ∧ c ≠ '-') ∧
      digitsValue (Nat.repr n).data = n := by
  obtain ⟨xs, hxs, hne, hdig, hval⟩ := toDigitsCore_spec (n + 1) n [] (Nat.lt_succ_self n)
  have : (Nat.repr n).data = xs := by
    simp [Nat.repr, Nat.toDigits, hxs, List.asString]
  rw [this]
  exact ⟨hne, hdig, hval⟩

theorem parseNat_repr (n : Nat) : parseNat (Nat.repr n).data = some n := by
  obtain ⟨hne, hdig, hval⟩ := repr_spec n
  unfold parseNat
  rw [if_pos]
  · rw [hval]
  · exact ⟨hne, List.all_eq_true.mpr (fun c hc => (hdig c hc).1)⟩

theorem parseInt_fmtInteger (n : Int) : parseInt (fmtInteger n).data = some n := by
  unfold fmtInteger
  by_cases hn : n < 0
  · rw [if_pos hn]
    have hdata : ("-" ++ Nat.repr n.natAbs).data = '-' :: (Nat.repr n.natAbs).data := by
      rw [String.data_append]; rfl
    rw [hdata]
    simp only [parseInt, if_true, parseNat_repr]
    congr 1
    show - ((n.natAbs : Nat) : Int) = n
    omega
  · rw [if_neg hn]
    obtain ⟨hne, hdig, _⟩ := repr_spec n.natAbs
    have hp := parseNat_repr n.natAbs
    cases hdata : (Nat.repr n.natAbs).data with
    | nil => exact absurd hdata hne
    | cons c ds =>
      rw [hdata] at hp hdig
      have hc : c ≠ '-' := (hdig c (List.mem_cons_self _ _)).2
      simp only [parseInt, if_neg hc, hp]
      congr 1
      show ((n.natAbs : Nat) : Int) = n
      omega

theorem parseSeconds_fmtInteger (n : Int) : parseSeconds (fmtInteger n ++ "s") = some n := by
  have : (fmtInteger n ++ "s").data.reverse = 's' :: (fmtInteger n).data.reverse := by
    rw [String.data_append]
    simp
  unfold parseSeconds
  rw [this]
  simp only [if_true, List.reverse_reverse]
  exact parseInt_fmtInteger n


/-! ## The handlers, case by case -/

theorem read_of_list_error {σ : Type} (q : String → String) (client : Client σ)
    (d : ResourceData) (s : σ) (e : String) (h : client.ListMounts s = .error e) :
    secretBackendRead q client d s
      = { d := d, remote := s, err := some ("Error reading mount " ++ q d.id ++ ": " ++ e) } := by
  simp [secretBackendRead, h]

theorem read_of_absent {σ : Type} (q : String → String) (client : Client σ)
    (d : ResourceData) (s : σ) (mounts : Mounts) (h : client.ListMounts s = .ok mounts)
    (ha : mounts.lookup (lookupKey d.id) = none) :
    secretBackendRead q client d s = { d := { d with id := "" }, remote := s, err := none } := by
  simp [secretBackendRead, h, ha]

theorem read_of_found {σ : Type} (q : String → String) (client : Client σ)
    (d : ResourceData) (s : σ) (mounts : Mounts) (mount : MountOutput)
    (h : client.ListMounts s = .ok mounts)
    (hf : mounts.lookup (lookupKey d.id) = some mount) :
    secretBackendRead q client d s
      = { d := { id := d.id, type := mount.Type_, path := d.id,
                 description := mount.Description,
                 default_lease_ttl_seconds := mount.Config.DefaultLeaseTTL,
                 max_lease_ttl_seconds := mount.Config.MaxLeaseTTL }
          remote := s, err := none } := by
  simp [secretBackendRead, h, hf]

theorem create_of_mount_error {σ : Type} (q : String → String) (client : Client σ)
    (d : ResourceData) (s : σ) (e : String)
    (h : client.Mount d.path
      { Type_ := d.type, Description := d.description,
        Config := secretBackendMountConfigInput d } s = .error e) :
    secretBackendCreate q client d s
      = { d := d, remote := s
          err := some ("Error mounting " ++ q d.type ++ " secret backend to " ++ q d.path
            ++ ": " ++ e) } := by
  simp [secretBackendCreate, h]

theorem create_of_mount_ok {σ : Type} (q : String → String) (client : Client σ)
    (d : ResourceData) (s s1 : σ)
    (h : client.Mount d.path
      { Type_ := d.type, Description := d.description,
        Config := secretBackendMountConfigInput d } s = .ok s1) :
    secretBackendCreate q client d s = secretBackendRead q client { d with id := d.path } s1 := by
  simp [secretBackendCreate, h]

theorem update_of_tune_error {σ : Type} (q : String → String) (client : Client σ)
    (d : ResourceData) (s : σ) (e : String)
    (h : client.TuneMount d.id (secretBackendMountConfigInput d) s = .error e) :
    secretBackendUpdate q client d s
      = { d := d, remote := s
          err := some ("Error updating mount TTLs for " ++ q d.id ++ ": " ++ e) } := by
  simp [secretBackendUpdate, h]

theorem update_of_tune_ok {σ : Type} (q : String → String) (client : Client σ)
    (d : ResourceData) (s s1 : σ)
    (h : client.TuneMount d.id (secretBackendMountConfigInput d) s = .ok s1) :
    secretBackendUpdate q client d s = secretBackendRead q client d s1 := by
  simp [secretBackendUpdate, h]

theorem delete_of_unmount_error {σ : Type} (q : String → String) (client : Client σ)
    (d : ResourceData) (s : σ) (e : String) (h : client.Unmount d.id s = .error e) :
    secretBackendDelete q client d s
      = { d := d, remote := s
          err := some ("Error unmounting secret backend from " ++ q d.id ++ ": " ++ e) } := by
  simp [secretBackendDelete, h]

theorem exists_of_list_error {σ : Type} (client : Client σ) (d : ResourceData) (s : σ)
    (e : String) (h : client.ListMounts s = .error e) :
    secretBackendExists client d s = (true, some ("Error retrieving list of mounts: " ++ e)) := by
  simp [secretBackendExists, h]


/-! ## The path validator -/

/-- C4: the path validator is a function of the path string alone; it never
reports a warning, and it reports an error, the single message of the source,
exactly when the path ends in "/". -/
theorem pathValidateFunc_error_iff_trailing_slash (value : String) :
    (pathValidateFunc value).1 = [] ∧
      ((pathValidateFunc value).2 ≠ [] ↔ ∃ t : String, value = t ++ "/") ∧
      ((∃ t : String, value = t ++ "/") →
        (pathValidateFunc value).2 = ["path cannot end in '/'"]) ∧
      ((¬ ∃ t : String, value = t ++ "/") → (pathValidateFunc value).2 = []) := by
  rw [← hasSuffix_slash_iff]
  unfold pathValidateFunc
  cases h : hasSuffix value "/" <;> simp

/-- C4, at the paths "ssh-test/" (rejected) and "ssh-test" (accepted). -/
theorem pathValidateFunc_error_iff_trailing_slash_witness :
    (pathValidateFunc "ssh-test/").2 = ["path cannot end in '/'"] ∧
      (pathValidateFunc "ssh-test").2 = [] :=
  ⟨(pathValidateFunc_error_iff_trailing_slash "ssh-test/").2.2.1 ⟨"ssh-test", by decide⟩,
    by decide⟩

/-! ## Existence check -/

/-- C5: when the mount list call fails, `secretBackendExists` returns `true`
together with an error, which carries the text of the failure. It returns an
error in no other case, so it never returns `false` with an error, and it never
returns without error when the list call failed. -/
theorem secretBackendExists_list_failure {σ : Type} (client : Client σ) (d : ResourceData)
    (s : σ) :
    (∀ e : String, client.ListMounts s = .error e →
      (secretBackendExists client d s).1 = true ∧
      (secretBackendExists client d s).2 = some ("Error retrieving list of mounts: " ++ e) ∧
      (secretBackendExists client d s).2 ≠ none) ∧
    ((secretBackendExists client d s).2 ≠ none → (secretBackendExists client d s).1 = true) ∧
    ((secretBackendExists client d s).2 = none → ∃ mounts, client.ListMounts s = .ok mounts) := by
  cases hl : client.ListMounts s with
  | error e0 =>
    rw [exists_of_list_error client d s e0 hl]
    refine ⟨?_, fun _ => rfl, fun h => absurd h (by simp)⟩
    intro e he
    cases he
    exact ⟨rfl, rfl, by simp⟩
  | ok mounts =>
    refine ⟨fun e he => absurd he (by simp), ?_, fun _ => ⟨mounts, rfl⟩⟩
    simp [secretBackendExists, hl]

/-- C5, at an unreachable remote. -/
theorem secretBackendExists_list_failure_witness :
    (secretBackendExists (unreachableClient "connection refused")
        (ResourceData.imported "ssh-test") ()).1 = true ∧
      (secretBackendExists (unreachableClient "connection refused")
        (ResourceData.imported "ssh-test") ()).2 ≠ none :=
  have h := (secretBackendExists_list_failure (unreachableClient "connection refused")
    (ResourceData.imported "ssh-test") ()).1 "connection refused" rfl
  ⟨h.1, h.2.2⟩

/-! ## Drift on read -/

/-- C2: when the remote lists its mounts and the list has no entry under the
lookup key of the identity, `secretBackendRead` returns no error and sets the
identity to the empty string. -/
theorem secretBackendRead_absent {σ : Type} (q : String → String) (client : Client σ)
    (d : ResourceData) (s : σ) (mounts : Mounts)
    (hlist : client.ListMounts s = .ok mounts)
    (habsent : mounts.lookup (lookupKey d.id) = none) :
    (secretBackendRead q client d s).err = none ∧ (secretBackendRead q client d s).d.id = "" := by
  simp [secretBackendRead, hlist, habsent]

/-- C2, at a registry without mounts. -/
theorem secretBackendRead_absent_witness :
    (secretBackendRead quotePlain registryClient (ResourceData.imported "ssh-test")
        Registry.empty).err = none ∧
      (secretBackendRead quotePlain registryClient (ResourceData.imported "ssh-test")
        Registry.empty).d.id = "" :=
  secretBackendRead_absent quotePlain registryClient (ResourceData.imported "ssh-test")
    Registry.empty [] rfl rfl

theorem read_absent_on_registry (q : String → String) (d : ResourceData) (r : Registry)
    (habsent : r.mounts.lookup (lookupKey d.id) = none) :
    (secretBackendRead q registryClient d r).err = none ∧
      (secretBackendRead q registryClient d r).d.id = "" := by
  rw [read_of_absent q registryClient d r r.mounts rfl habsent]
  exact ⟨rfl, rfl⟩

theorem lookup_filter_ne (key : String) (ms : Mounts) :
    (ms.filter (fun e => e.1 != key)).lookup key = none := by
  induction ms with
  | nil => rfl
  | cons e rest ih =>
    obtain ⟨k, m⟩ := e
    by_cases hk : k = key
    · subst hk
      simpa [List.filter] using ih
    · have hb : (key == k) = false := by
        simpa using fun h : key = k => hk h.symm
      have hb2 : (k != key) = true := by simpa using hk
      simp [List.filter, hb2, List.lookup, hb, ih]

theorem delete_then_read_on_registry (q : String → String) (d : ResourceData) (r : Registry)
    (mount : MountOutput)
    (hmounted : r.mounts.lookup (mountKey d.id) = some mount) :
    (secretBackendDelete q registryClient d r).err = none ∧
      (secretBackendRead q registryClient d (secretBackendDelete q registryClient d r).remote).err
        = none ∧
      (secretBackendRead q registryClient d (secretBackendDelete q registryClient d r).remote).d.id
        = "" := by
  have hdel : secretBackendDelete q registryClient d r
      = { d := d
          remote := { mounts := r.mounts.filter (fun e => e.1 != mountKey d.id)
                      requests := r.requests ++ [Request.unmount d.id] }
          err := none } := by
    simp [secretBackendDelete, registryClient, Registry.unmount, hmounted]
  rw [hdel]
  refine ⟨rfl, ?_⟩
  have habs := read_absent_on_registry q d
    { mounts := r.mounts.filter (fun e => e.1 != mountKey d.id)
      requests := r.requests ++ [Request.unmount d.id] }
    (by rw [lookupKey_eq_mountKey]; exact lookup_filter_ne _ _)
  exact habs

/-! ## TTL wire format -/

theorem secretBackendMountConfigInput_basic :
    secretBackendMountConfigInput (ResourceData.ofConfig (basicConfig "ssh-test"))
      = { DefaultLeaseTTL := "3600s", MaxLeaseTTL := "86400s" } := by
  decide

theorem secretBackendMountConfigInput_unspecified :
    secretBackendMountConfigInput
      (ResourceData.ofConfig
        { type := "ssh", path := none, description := none,
          default_lease_ttl_seconds := none, max_lease_ttl_seconds := none })
      = { DefaultLeaseTTL := "0s", MaxLeaseTTL := "0s" } := by
  decide

theorem fmtInteger_negative : fmtInteger (-5) ++ "s" = "-5s" := by
  decide

/-- C10: the two TTLs are sent as the `%d` rendering of the integer followed by
"s"; that string reads back as the integer, and two second counts are sent as
the same string only when they are equal. -/
theorem secretBackendMountConfigInput_wire_format (d d' : ResourceData) :
    (secretBackendMountConfigInput d).DefaultLeaseTTL
        = fmtInteger d.default_lease_ttl_seconds ++ "s" ∧
      (secretBackendMountConfigInput d).MaxLeaseTTL
        = fmtInteger d.max_lease_ttl_seconds ++ "s" ∧
      parseSeconds (secretBackendMountConfigInput d).DefaultLeaseTTL
        = some d.default_lease_ttl_seconds ∧
      parseSeconds (secretBackendMountConfigInput d).MaxLeaseTTL
        = some d.max_lease_ttl_seconds ∧
      ((secretBackendMountConfigInput d).DefaultLeaseTTL
          = (secretBackendMountConfigInput d').DefaultLeaseTTL ↔
        d.default_lease_ttl_seconds = d'.default_lease_ttl_seconds) ∧
      ((secretBackendMountConfigInput d).MaxLeaseTTL
          = (secretBackendMountConfigInput d').MaxLeaseTTL ↔
        d.max_lease_ttl_seconds = d'.max_lease_ttl_seconds) := by
  refine ⟨rfl, rfl, parseSeconds_fmtInteger _, parseSeconds_fmtInteger _, ?_, ?_⟩
  · constructor
    · intro h
      have h1 := congrArg parseSeconds h
      simp only [secretBackendMountConfigInput, parseSeconds_fmtInteger] at h1
      exact Option.some.inj h1
    · intro h
      simp [secretBackendMountConfigInput, h]
  · constructor
    · intro h
      have h1 := congrArg parseSeconds h
      simp only [secretBackendMountConfigInput, parseSeconds_fmtInteger] at h1
      exact Option.some.inj h1
    · intro h
      simp [secretBackendMountConfigInput, h]


/-! ## Create, then read -/

theorem registryClient_storesMounts : StoresMounts registryClient := by
  intro path input r r1 h
  simp only [registryClient, Registry.mount] at h
  cases h1 : parseSeconds input.Config.DefaultLeaseTTL with
  | none => simp [h1] at h
  | some dflt =>
    cases h2 : parseSeconds input.Config.MaxLeaseTTL with
    | none => simp [h1, h2] at h
    | some mx =>
      cases h3 : r.mounts.lookup (mountKey path) with
      | some m => simp [h1, h2, h3] at h
      | none =>
        simp only [h1, h2, h3, Except.ok.injEq] at h
        subst h
        exact ⟨_, dflt, mx, rfl, rfl, rfl, by simp [List.lookup]⟩

/-- C1: for every remote that stores mounts under the path with a trailing
slash and reads the TTL `<n>s` back as `n` seconds, for every type, every path
that does not end in "/", every description and every pair of TTL seconds, a
create that returns no error leaves the identity equal to the path, and path,
type, description and both TTLs equal to the supplied values; the identity it
leaves does not end in "/". -/
theorem create_round_trip {σ : Type} (q : String → String) (client : Client σ)
    (hmodel : StoresMounts client)
    (ty path desc : String) (dflt mx : Int) (s : σ)
    (hlast : hasSuffix path "/" = false)
    (hok : (secretBackendCreate q client
      (ResourceData.ofConfig
        { type := ty, path := some path, description := some desc,
          default_lease_ttl_seconds := some dflt, max_lease_ttl_seconds := some mx })
      s).err = none) :
    (secretBackendCreate q client
      (ResourceData.ofConfig
        { type := ty, path := some path, description := some desc,
          default_lease_ttl_seconds := some dflt, max_lease_ttl_seconds := some mx })
      s).d
      = { id := path, type := ty, path := path, description := desc,
          default_lease_ttl_seconds := dflt, max_lease_ttl_seconds := mx } ∧
    hasSuffix (secretBackendCreate q client
      (ResourceData.ofConfig
        { type := ty, path := some path, description := some desc,
          default_lease_ttl_seconds := some dflt, max_lease_ttl_seconds := some mx })
      s).d.id "/" = false := by
  have hkey := lookupKey_eq_mountKey path
  generalize hd : ResourceData.ofConfig
        { type := ty, path := some path, description := some desc,
          default_lease_ttl_seconds := some dflt, max_lease_ttl_seconds := some mx } = d at hok ⊢
  have hdp : d.path = path := by rw [← hd]; rfl
  cases hm : client.Mount d.path
      { Type_ := d.type, Description := d.description,
        Config := secretBackendMountConfigInput d } s with
  | error e =>
    rw [create_of_mount_error q client d s e hm] at hok
    exact absurd hok (by simp)
  | ok s1 =>
    obtain ⟨mounts, dflt1, mx1, hl, hp1, hp2, hf⟩ := hmodel _ _ _ _ hm
    have e1 : dflt1 = d.default_lease_ttl_seconds :=
      (Option.some.inj ((parseSeconds_fmtInteger _).symm.trans hp1)).symm
    have e2 : mx1 = d.max_lease_ttl_seconds :=
      (Option.some.inj ((parseSeconds_fmtInteger _).symm.trans hp2)).symm
    rw [hdp, ← hkey] at hf
    rw [create_of_mount_ok q client d s s1 hm]
    have hf2 : mounts.lookup (lookupKey ({ d with id := d.path } : ResourceData).id)
        = some { Type_ := d.type, Description := d.description,
                 Config := { DefaultLeaseTTL := dflt1, MaxLeaseTTL := mx1 } } := by
      rw [show ({ d with id := d.path } : ResourceData).id = path from hdp]
      exact hf
    rw [read_of_found q client _ s1 mounts _ hl hf2, e1, e2, ← hd]
    exact ⟨rfl, hlast⟩

/-- C1, at the configuration of the acceptance test. -/
theorem create_round_trip_witness :
    (secretBackendCreate quotePlain registryClient
      (ResourceData.ofConfig (basicConfig "ssh-test")) Registry.empty).d
      = { id := "ssh-test", type := "ssh", path := "ssh-test",
          description := "test description",
          default_lease_ttl_seconds := 3600, max_lease_ttl_seconds := 86400 } :=
  (create_round_trip quotePlain registryClient registryClient_storesMounts
    "ssh" "ssh-test" "test description" 3600 86400 Registry.empty
    (by decide) (by decide)).1

/-! ## Omitted path -/

theorem create_omitted_path_identity {σ : Type} (q : String → String) (client : Client σ)
    (cfg : Config) (s : σ) (hpath : cfg.path = none) :
    (ResourceData.ofConfig cfg).path = "" ∧
      (secretBackendCreate q client (ResourceData.ofConfig cfg) s).d.id = "" := by
  have hp : (ResourceData.ofConfig cfg).path = "" := by simp [ResourceData.ofConfig, hpath]
  refine ⟨hp, ?_⟩
  generalize hd : ResourceData.ofConfig cfg = d at hp
  have hid : d.id = "" := by rw [← hd]; rfl
  cases hm : client.Mount d.path
      { Type_ := d.type, Description := d.description,
        Config := secretBackendMountConfigInput d } s with
  | error e =>
    rw [create_of_mount_error q client d s e hm]
    exact hid
  | ok s1 =>
    rw [create_of_mount_ok q client d s s1 hm]
    cases hl : client.ListMounts s1 with
    | error e =>
      rw [read_of_list_error q client _ s1 e hl]
      exact hp
    | ok mounts =>
      cases hf : mounts.lookup (lookupKey ({ d with id := d.path } : ResourceData).id) with
      | none =>
        rw [read_of_absent q client _ s1 mounts hl hf]
      | some mount =>
        rw [read_of_found q client _ s1 mounts mount hl hf]
        exact hp

/-- C3: with the path omitted from the configuration, create sends its mount
request for the empty path and leaves the empty identity; nothing is mounted
under the type "ssh". -/
theorem create_omitted_path_mounts_empty_path :
    (secretBackendCreate quotePlain registryClient
        (ResourceData.ofConfig
          { type := "ssh", path := none, description := none,
            default_lease_ttl_seconds := none, max_lease_ttl_seconds := none })
        Registry.empty).remote.requests
      = [Request.mount ""
          { Type_ := "ssh", Description := "",
            Config := { DefaultLeaseTTL := "0s", MaxLeaseTTL := "0s" } }] ∧
      (secretBackendCreate quotePlain registryClient
        (ResourceData.ofConfig
          { type := "ssh", path := none, description := none,
            default_lease_ttl_seconds := none, max_lease_ttl_seconds := none })
        Registry.empty).d.id = "" ∧
      (secretBackendCreate quotePlain registryClient
        (ResourceData.ofConfig
          { type := "ssh", path := none, description := none,
            default_lease_ttl_seconds := none, max_lease_ttl_seconds := none })
        Registry.empty).remote.mounts.lookup "ssh/" = none := by
  decide


/-! ## Update -/

theorem lookup_retune (key : String) (cfg : MountConfigOutput) (ms : Mounts) :
    (retune key cfg ms).lookup key
      = match ms.lookup key with
        | some m => some { m with Config := cfg }
        | none => none := by
  induction ms with
  | nil => rfl
  | cons e rest ih =>
    obtain ⟨k, m⟩ := e
    by_cases hk : k = key
    · subst hk
      simp [retune, List.lookup]
    · have hb : (key == k) = false := by
        simpa using fun h : key = k => hk h.symm
      simp [retune, hk, List.lookup, hb, ih]

theorem registryClient_appliesTunes : AppliesTunes registryClient := by
  intro path config r r1 mounts mount hl hf h
  have hmounts : r.mounts = mounts := by
    simpa [registryClient] using hl
  subst hmounts
  simp only [registryClient, Registry.tune] at h
  cases h1 : parseSeconds config.DefaultLeaseTTL with
  | none => simp [h1] at h
  | some dflt =>
    cases h2 : parseSeconds config.MaxLeaseTTL with
    | none => simp [h1, h2] at h
    | some mx =>
      simp only [h1, h2, hf, Except.ok.injEq] at h
      subst h
      exact ⟨_, dflt, mx, rfl, rfl, rfl, by simp [lookup_retune, hf]⟩

theorem registryClient_tune_requests (path : String) (config : MountConfigInput)
    (r r1 : Registry) (h : registryClient.TuneMount path config r = .ok r1) :
    r1.requests = r.requests ++ [Request.tune path config] := by
  simp only [registryClient, Registry.tune] at h
  cases h1 : parseSeconds config.DefaultLeaseTTL with
  | none => simp [h1] at h
  | some dflt =>
    cases h2 : parseSeconds config.MaxLeaseTTL with
    | none => simp [h1, h2] at h
    | some mx =>
      cases h3 : r.mounts.lookup (mountKey path) with
      | none => simp [h1, h2, h3] at h
      | some m =>
        simp only [h1, h2, h3, Except.ok.injEq] at h
        subst h
        rfl

/-- C6 as stated fails: `registryClient` applies tunes, the mount of the
resource exists and the update returns no error, but the description held by
the remote differs from the local one, and the re-read replaces the local
description. -/
theorem update_frame_counterexample :
    AppliesTunes registryClient ∧
      (secretBackendExists registryClient
        { id := "ssh-test", type := "ssh", path := "ssh-test",
          description := "test description",
          default_lease_ttl_seconds := 1800, max_lease_ttl_seconds := 43200 }
        { mounts := [("ssh-test/",
            { Type_ := "ssh", Description := "changed on the server",
              Config := { DefaultLeaseTTL := 3600, MaxLeaseTTL := 86400 } })],
          requests := [] }) = (true, none) ∧
      (secretBackendUpdate quotePlain registryClient
        { id := "ssh-test", type := "ssh", path := "ssh-test",
          description := "test description",
          default_lease_ttl_seconds := 1800, max_lease_ttl_seconds := 43200 }
        { mounts := [("ssh-test/",
            { Type_ := "ssh", Description := "changed on the server",
              Config := { DefaultLeaseTTL := 3600, MaxLeaseTTL := 86400 } })],
          requests := [] }).err = none ∧
      (secretBackendUpdate quotePlain registryClient
        { id := "ssh-test", type := "ssh", path := "ssh-test",
          description := "test description",
          default_lease_ttl_seconds := 1800, max_lease_ttl_seconds := 43200 }
        { mounts := [("ssh-test/",
            { Type_ := "ssh", Description := "changed on the server",
              Config := { DefaultLeaseTTL := 3600, MaxLeaseTTL := 86400 } })],
          requests := [] }).d.description = "changed on the server" ∧
      (secretBackendUpdate quotePlain registryClient
        { id := "ssh-test", type := "ssh", path := "ssh-test",
          description := "test description",
          default_lease_ttl_seconds := 1800, max_lease_ttl_seconds := 43200 }
        { mounts := [("ssh-test/",
            { Type_ := "ssh", Description := "changed on the server",
              Config := { DefaultLeaseTTL := 3600, MaxLeaseTTL := 86400 } })],
          requests := [] }).d.description ≠ "test description" :=
  ⟨registryClient_appliesTunes, by decide⟩

/-- C6, amended: for every remote that applies tunes to the mount stored under
the path with a trailing slash, and every resource whose path attribute is its
identity and whose mount is registered with the local type and description, an
update that returns no error has sent one request to the remote, a tune for the
identity that carries the two new TTLs and nothing else, and after its re-read
path, type and description are as they were and the two TTLs are the new
values, those of the resource data handed to the update. -/
theorem update_changes_only_ttls {σ : Type} (q : String → String) (client : Client σ)
    (hmodel : AppliesTunes client)
    (d : ResourceData) (s : σ) (mounts : Mounts) (mount : MountOutput)
    (hlist : client.ListMounts s = .ok mounts)
    (hfound : mounts.lookup (lookupKey d.id) = some mount)
    (hpath : d.path = d.id)
    (htype : mount.Type_ = d.type)
    (hdesc : mount.Description = d.description)
    (hok : (secretBackendUpdate q client d s).err = none) :
    (∃ s1, client.TuneMount d.id
        { DefaultLeaseTTL := fmtInteger d.default_lease_ttl_seconds ++ "s",
          MaxLeaseTTL := fmtInteger d.max_lease_ttl_seconds ++ "s" } s = .ok s1 ∧
        (secretBackendUpdate q client d s).remote = s1) ∧
      (secretBackendUpdate q client d s).d = d := by
  have hkey := lookupKey_eq_mountKey d.id
  cases ht : client.TuneMount d.id (secretBackendMountConfigInput d) s with
  | error e =>
    rw [update_of_tune_error q client d s e ht] at hok
    exact absurd hok (by simp)
  | ok s1 =>
    rw [hkey] at hfound
    obtain ⟨mounts1, dflt1, mx1, hl1, hp1, hp2, hf1⟩ := hmodel _ _ _ _ _ _ hlist hfound ht
    have e1 : dflt1 = d.default_lease_ttl_seconds :=
      (Option.some.inj ((parseSeconds_fmtInteger _).symm.trans hp1)).symm
    have e2 : mx1 = d.max_lease_ttl_seconds :=
      (Option.some.inj ((parseSeconds_fmtInteger _).symm.trans hp2)).symm
    rw [← hkey] at hf1
    rw [update_of_tune_ok q client d s s1 ht, read_of_found q client d s1 mounts1 _ hl1 hf1]
    refine ⟨⟨s1, ht, rfl⟩, ?_⟩
    cases d
    simp_all

theorem update_keeps_imported_trailing_slash :
    (secretBackendUpdate quotePlain registryClient
      { id := "ssh-test/", type := "ssh", path := "ssh-test/",
        description := "test description",
        default_lease_ttl_seconds := 1800, max_lease_ttl_seconds := 43200 }
      { mounts := [("ssh-test/",
          { Type_ := "ssh", Description := "test description",
            Config := { DefaultLeaseTTL := 3600, MaxLeaseTTL := 86400 } })],
        requests := [] }).d
      = { id := "ssh-test/", type := "ssh", path := "ssh-test/",
          description := "test description",
          default_lease_ttl_seconds := 1800, max_lease_ttl_seconds := 43200 } := by
  decide

/-- C6, amended, at the acceptance test: the resource created with TTLs 3600
and 86400 is updated to 1800 and 43200. -/
theorem update_changes_only_ttls_witness :
    (secretBackendUpdate quotePlain registryClient
      { id := "ssh-test", type := "ssh", path := "ssh-test",
        description := "test description",
        default_lease_ttl_seconds := 1800, max_lease_ttl_seconds := 43200 }
      (secretBackendCreate quotePlain registryClient
        (ResourceData.ofConfig (basicConfig "ssh-test")) Registry.empty).remote).d
      = { id := "ssh-test", type := "ssh", path := "ssh-test",
          description := "test description",
          default_lease_ttl_seconds := 1800, max_lease_ttl_seconds := 43200 } :=
  (update_changes_only_ttls quotePlain registryClient registryClient_appliesTunes
    { id := "ssh-test", type := "ssh", path := "ssh-test",
      description := "test description",
      default_lease_ttl_seconds := 1800, max_lease_ttl_seconds := 43200 }
    (secretBackendCreate quotePlain registryClient
      (ResourceData.ofConfig (basicConfig "ssh-test")) Registry.empty).remote
    [("ssh-test/",
      { Type_ := "ssh", Description := "test description",
        Config := { DefaultLeaseTTL := 3600, MaxLeaseTTL := 86400 } })]
    { Type_ := "ssh", Description := "test description",
      Config := { DefaultLeaseTTL := 3600, MaxLeaseTTL := 86400 } }
    rfl (by decide) rfl rfl rfl (by decide)).2

/-! ## Import -/

/-- C7: what `secretBackendRead` writes depends only on the identity and the
remote. Two states with the same identity, read at the same remote, get the
same error and the same identity, and either read leaves the attributes of both
untouched or both end as the same state. Hence, after a create that returns no
error and leaves the resource with an identity, a state holding that identity,
whatever its attributes, is read to the state create left. -/
theorem read_import_rehydration {σ : Type} (q : String → String) (client : Client σ) :
    (∀ (d1 d2 : ResourceData) (s : σ), d1.id = d2.id →
      (secretBackendRead q client d1 s).err = (secretBackendRead q client d2 s).err ∧
      (secretBackendRead q client d1 s).d.id = (secretBackendRead q client d2 s).d.id ∧
      ((secretBackendRead q client d1 s).d = (secretBackendRead q client d2 s).d ∨
        ((secretBackendRead q client d1 s).d
            = { d1 with id := (secretBackendRead q client d1 s).d.id } ∧
          (secretBackendRead q client d2 s).d
            = { d2 with id := (secretBackendRead q client d2 s).d.id }))) ∧
    (∀ (d fresh : ResourceData) (s : σ),
      (secretBackendCreate q client d s).err = none →
      (secretBackendCreate q client d s).d.id ≠ "" →
      fresh.id = (secretBackendCreate q client d s).d.id →
      (secretBackendRead q client fresh (secretBackendCreate q client d s).remote).err = none ∧
      (secretBackendRead q client fresh (secretBackendCreate q client d s).remote).d
        = (secretBackendCreate q client d s).d) := by
  constructor
  · intro d1 d2 s hid
    cases hl : client.ListMounts s with
    | error e =>
      rw [read_of_list_error q client d1 s e hl, read_of_list_error q client d2 s e hl]
      exact ⟨by simp [hid], hid, Or.inr ⟨rfl, rfl⟩⟩
    | ok mounts =>
      cases hf : mounts.lookup (lookupKey d2.id) with
      | none =>
        rw [read_of_absent q client d1 s mounts hl (hid ▸ hf),
          read_of_absent q client d2 s mounts hl hf]
        exact ⟨rfl, rfl, Or.inr ⟨rfl, rfl⟩⟩
      | some mount =>
        rw [read_of_found q client d1 s mounts mount hl (hid ▸ hf),
          read_of_found q client d2 s mounts mount hl hf, hid]
        exact ⟨rfl, rfl, Or.inl rfl⟩
  · intro d fresh s
    cases hm : client.Mount d.path
        { Type_ := d.type, Description := d.description,
          Config := secretBackendMountConfigInput d } s with
    | error e =>
      rw [create_of_mount_error q client d s e hm]
      intro h
      exact absurd h (by simp)
    | ok s1 =>
      rw [create_of_mount_ok q client d s s1 hm]
      cases hl : client.ListMounts s1 with
      | error e =>
        rw [read_of_list_error q client _ s1 e hl]
        intro h
        exact absurd h (by simp)
      | ok mounts =>
        cases hf : mounts.lookup (lookupKey d.path) with
        | none =>
          rw [read_of_absent q client _ s1 mounts hl hf]
          intro _ h
          exact absurd rfl h
        | some mount =>
          rw [read_of_found q client _ s1 mounts mount hl hf]
          intro _ _ hfresh
          have hfid : fresh.id = d.path := hfresh
          rw [read_of_found q client fresh s1 mounts mount hl (hfid ▸ hf), hfid]
          exact ⟨rfl, rfl⟩

/-- C7, at the acceptance test: the resource created at "ssh-test" and a state
holding only the identity "ssh-test" read to the same state. -/
theorem read_import_rehydration_witness :
    (secretBackendRead quotePlain registryClient (ResourceData.imported "ssh-test")
      (secretBackendCreate quotePlain registryClient
        (ResourceData.ofConfig (basicConfig "ssh-test")) Registry.empty).remote).d
      = (secretBackendCreate quotePlain registryClient
        (ResourceData.ofConfig (basicConfig "ssh-test")) Registry.empty).d :=
  ((read_import_rehydration quotePlain registryClient).2
    (ResourceData.ofConfig (basicConfig "ssh-test")) (ResourceData.imported "ssh-test")
    Registry.empty (by decide) (by decide) (by decide)).2


/-! ## Error messages -/

theorem mentions_self (a : String) : mentions a a :=
  List.infix_refl _

theorem mentions_append_left (a b part : String) (h : mentions a part) :
    mentions (a ++ b) part := by
  obtain ⟨u, v, huv⟩ := h
  refine ⟨u, v ++ b.data, ?_⟩
  rw [String.data_append, ← huv]
  simp

theorem mentions_append_right (a b part : String) (h : mentions b part) :
    mentions (a ++ b) part := by
  obtain ⟨u, v, huv⟩ := h
  refine ⟨a.data ++ u, v, ?_⟩
  rw [String.data_append, ← huv]
  simp

/-- C8 as stated fails for the existence check: its list call fails with
"connection refused" for the resource "ssh-test", and the returned message
names neither "ssh-test" nor its quoted form. -/
theorem exists_error_names_no_path_counterexample :
    (secretBackendExists (unreachableClient "connection refused")
        (ResourceData.imported "ssh-test") ()).2
      = some "Error retrieving list of mounts: connection refused" ∧
      ¬ mentions "Error retrieving list of mounts: connection refused" "ssh-test" ∧
      ¬ mentions "Error retrieving list of mounts: connection refused"
        (quotePlain "ssh-test") := by
  decide

/-- C8, amended: when a remote call of create, read, update or delete fails,
the handler returns an error whose message names the failed action and the path
concerned, in the quoted form `%q`, and contains the text of the underlying
error. When the list call of the existence check fails, the returned message is
"Error retrieving list of mounts: " followed by the text of the underlying
error: it names the action and carries the cause, and no path. -/
theorem lifecycle_errors_wrap_cause {σ : Type} (q : String → String) (client : Client σ)
    (d : ResourceData) (s : σ) (e : String) :
    (client.Mount d.path
        { Type_ := d.type, Description := d.description,
          Config := secretBackendMountConfigInput d } s = .error e →
      ∃ msg, (secretBackendCreate q client d s).err = some msg ∧
        mentions msg "mounting" ∧ mentions msg (q d.path) ∧ mentions msg e) ∧
    (∀ s1, client.Mount d.path
        { Type_ := d.type, Description := d.description,
          Config := secretBackendMountConfigInput d } s = .ok s1 →
      client.ListMounts s1 = .error e →
      ∃ msg, (secretBackendCreate q client d s).err = some msg ∧
        mentions msg "reading mount" ∧ mentions msg (q d.path) ∧ mentions msg e) ∧
    (client.ListMounts s = .error e →
      ∃ msg, (secretBackendRead q client d s).err = some msg ∧
        mentions msg "reading mount" ∧ mentions msg (q d.id) ∧ mentions msg e) ∧
    (client.TuneMount d.id (secretBackendMountConfigInput d) s = .error e →
      ∃ msg, (secretBackendUpdate q client d s).err = some msg ∧
        mentions msg "updating mount TTLs" ∧ mentions msg (q d.id) ∧ mentions msg e) ∧
    (∀ s1, client.TuneMount d.id (secretBackendMountConfigInput d) s = .ok s1 →
      client.ListMounts s1 = .error e →
      ∃ msg, (secretBackendUpdate q client d s).err = some msg ∧
        mentions msg "reading mount" ∧ mentions msg (q d.id) ∧ mentions msg e) ∧
    (client.Unmount d.id s = .error e →
      ∃ msg, (secretBackendDelete q client d s).err = some msg ∧
        mentions msg "unmounting" ∧ mentions msg (q d.id) ∧ mentions msg e) ∧
    (client.ListMounts s = .error e →
      (secretBackendExists client d s).2 = some ("Error retrieving list of mounts: " ++ e) ∧
        mentions ("Error retrieving list of mounts: " ++ e) "retrieving list of mounts" ∧
        mentions ("Error retrieving list of mounts: " ++ e) e) := by
  have hreading : ∀ p : String,
      mentions ("Error reading mount " ++ q p ++ ": " ++ e) "reading mount" ∧
      mentions ("Error reading mount " ++ q p ++ ": " ++ e) (q p) ∧
      mentions ("Error reading mount " ++ q p ++ ": " ++ e) e := fun p =>
    ⟨mentions_append_left _ _ _ (mentions_append_left _ _ _
        (mentions_append_left _ _ _ (by decide))),
      mentions_append_left _ _ _ (mentions_append_left _ _ _
        (mentions_append_right _ _ _ (mentions_self _))),
      mentions_append_right _ _ _ (mentions_self _)⟩
  refine ⟨?_, ?_, ?_, ?_, ?_, ?_, ?_⟩
  · intro h
    rw [create_of_mount_error q client d s e h]
    exact ⟨_, rfl,
      mentions_append_left _ _ _ (mentions_append_left _ _ _ (mentions_append_left _ _ _
        (mentions_append_left _ _ _ (mentions_append_left _ _ _ (by decide))))),
      mentions_append_left _ _ _ (mentions_append_left _ _ _
        (mentions_append_right _ _ _ (mentions_self _))),
      mentions_append_right _ _ _ (mentions_self _)⟩
  · intro s1 h hl
    rw [create_of_mount_ok q client d s s1 h, read_of_list_error q client _ s1 e hl]
    exact ⟨_, rfl, hreading d.path⟩
  · intro hl
    rw [read_of_list_error q client d s e hl]
    exact ⟨_, rfl, hreading d.id⟩
  · intro h
    rw [update_of_tune_error q client d s e h]
    exact ⟨_, rfl,
      mentions_append_left _ _ _ (mentions_append_left _ _ _
        (mentions_append_left _ _ _ (by decide))),
      mentions_append_left _ _ _ (mentions_append_left _ _ _
        (mentions_append_right _ _ _ (mentions_self _))),
      mentions_append_right _ _ _ (mentions_self _)⟩
  · intro s1 h hl
    rw [update_of_tune_ok q client d s s1 h, read_of_list_error q client d s1 e hl]
    exact ⟨_, rfl, hreading d.id⟩
  · intro h
    rw [delete_of_unmount_error q client d s e h]
    exact ⟨_, rfl,
      mentions_append_left _ _ _ (mentions_append_left _ _ _
        (mentions_append_left _ _ _ (by decide))),
      mentions_append_left _ _ _ (mentions_append_left _ _ _
        (mentions_append_right _ _ _ (mentions_self _))),
      mentions_append_right _ _ _ (mentions_self _)⟩
  · intro hl
    rw [exists_of_list_error client d s e hl]
    exact ⟨rfl, mentions_append_left _ _ _ (by decide),
      mentions_append_right _ _ _ (mentions_self _)⟩

/-- C8, amended, at an unreachable remote: the delete of "ssh-test" fails with a
message that names the unmount, the quoted path and the cause. -/
theorem lifecycle_errors_wrap_cause_witness :
    ∃ msg, (secretBackendDelete quotePlain (unreachableClient "connection refused")
        (ResourceData.imported "ssh-test") ()).err = some msg ∧
      mentions msg "unmounting" ∧ mentions msg (quotePlain "ssh-test") ∧
      mentions msg "connection refused" :=
  (lifecycle_errors_wrap_cause quotePlain (unreachableClient "connection refused")
    (ResourceData.imported "ssh-test") () "connection refused").2.2.2.2.2.1 rfl

/-! ## Slash invariant -/

theorem pathDiffSuppressFunc_trailing_slash (p : String) :
    pathDiffSuppressFunc (p ++ "/") p = true ∧ pathDiffSuppressFunc p (p ++ "/") = true := by
  simp [pathDiffSuppressFunc]

theorem hasSuffix_empty : hasSuffix "" "/" = false := by decide

/-- C9 as stated fails: the import of "ssh-test/" hands the identity through
unchanged, the read finds the mount under "ssh-test/", and the identity and the
recorded path it leaves both end in "/". -/
theorem import_trailing_slash_counterexample :
    ((([("ssh-test/",
          { Type_ := "ssh", Description := "test description",
            Config := { DefaultLeaseTTL := 3600, MaxLeaseTTL := 86400 } })] : Mounts).lookup
        (lookupKey (ResourceData.imported "ssh-test/").id)).isSome = true) ∧
      (secretBackendRead quotePlain registryClient (ResourceData.imported "ssh-test/")
        { mounts := [("ssh-test/",
            { Type_ := "ssh", Description := "test description",
              Config := { DefaultLeaseTTL := 3600, MaxLeaseTTL := 86400 } })],
          requests := [] }).err = none ∧
      hasSuffix (secretBackendRead quotePlain registryClient (ResourceData.imported "ssh-test/")
        { mounts := [("ssh-test/",
            { Type_ := "ssh", Description := "test description",
              Config := { DefaultLeaseTTL := 3600, MaxLeaseTTL := 86400 } })],
          requests := [] }).d.id "/" = true ∧
      hasSuffix (secretBackendRead quotePlain registryClient (ResourceData.imported "ssh-test/")
        { mounts := [("ssh-test/",
            { Type_ := "ssh", Description := "test description",
              Config := { DefaultLeaseTTL := 3600, MaxLeaseTTL := 86400 } })],
          requests := [] }).d.path "/" = true := by
  decide

theorem read_keeps_no_trailing_slash {σ : Type} (q : String → String) (client : Client σ)
    (d : ResourceData) (s : σ)
    (hid : hasSuffix d.id "/" = false) (hpath : hasSuffix d.path "/" = false) :
    hasSuffix (secretBackendRead q client d s).d.id "/" = false ∧
      hasSuffix (secretBackendRead q client d s).d.path "/" = false := by
  cases hl : client.ListMounts s with
  | error e =>
    rw [read_of_list_error q client d s e hl]
    exact ⟨hid, hpath⟩
  | ok mounts =>
    cases hf : mounts.lookup (lookupKey d.id) with
    | none =>
      rw [read_of_absent q client d s mounts hl hf]
      exact ⟨hasSuffix_empty, hpath⟩
    | some mount =>
      rw [read_of_found q client d s mounts mount hl hf]
      exact ⟨hid, hid⟩

/-- C9, amended: the key that read and exists look up is the identity with its
leading and trailing slashes trimmed, followed by one "/", so it always ends in
"/". A create that returns no error, for a path that does not end in "/" (what the
validator admits), leaves an identity and a path attribute that do not end in
"/". Read and update keep this: when identity and path attribute do not end in
"/" before, they do not after. An import followed by a read that finds the
mount leaves the imported identity unchanged and records it as the path, with
or without a trailing slash. -/
theorem slash_invariant {σ : Type} (q : String → String) (client : Client σ)
    (d : ResourceData) (s : σ) :
    hasSuffix (lookupKey d.id) "/" = true ∧
    (∃ t : String, lookupKey d.id = t ++ "/" ∧ hasSuffix t "/" = false ∧
      t.data.head? ≠ some '/') ∧
    (∀ mounts : Mounts, client.ListMounts s = .ok mounts →
      (secretBackendExists client d s).1 = (mounts.lookup (lookupKey d.id)).isSome ∧
      ((secretBackendRead q client d s).d.id = "" ↔
        (d.id = "" ∨ mounts.lookup (lookupKey d.id) = none))) ∧
    (hasSuffix d.path "/" = false → (secretBackendCreate q client d s).err = none →
      hasSuffix (secretBackendCreate q client d s).d.id "/" = false ∧
      hasSuffix (secretBackendCreate q client d s).d.path "/" = false) ∧
    (hasSuffix d.id "/" = false → hasSuffix d.path "/" = false →
      hasSuffix (secretBackendRead q client d s).d.id "/" = false ∧
      hasSuffix (secretBackendRead q client d s).d.path "/" = false) ∧
    (hasSuffix d.id "/" = false → hasSuffix d.path "/" = false →
      hasSuffix (secretBackendUpdate q client d s).d.id "/" = false ∧
      hasSuffix (secretBackendUpdate q client d s).d.path "/" = false) ∧
    (∀ (id : String) (mounts : Mounts) (mount : MountOutput),
      client.ListMounts s = .ok mounts → mounts.lookup (lookupKey id) = some mount →
      (secretBackendRead q client (ResourceData.imported id) s).d.id = id ∧
      (secretBackendRead q client (ResourceData.imported id) s).d.path = id) := by
  refine ⟨hasSuffix_lookupKey d.id, lookupKey_spec d.id, ?_, ?_,
    read_keeps_no_trailing_slash q client d s, ?_, ?_⟩
  · intro mounts hl
    refine ⟨by simp [secretBackendExists, hl], ?_⟩
    cases hf : mounts.lookup (lookupKey d.id) with
    | none =>
      rw [read_of_absent q client d s mounts hl hf]
      simp
    | some mount =>
      rw [read_of_found q client d s mounts mount hl hf]
      simp
  · intro hpath
    cases hm : client.Mount d.path
        { Type_ := d.type, Description := d.description,
          Config := secretBackendMountConfigInput d } s with
    | error e =>
      rw [create_of_mount_error q client d s e hm]
      intro h
      exact absurd h (by simp)
    | ok s1 =>
      rw [create_of_mount_ok q client d s s1 hm]
      intro _
      exact read_keeps_no_trailing_slash q client { d with id := d.path } s1 hpath hpath
  · intro hid hpath
    cases ht : client.TuneMount d.id (secretBackendMountConfigInput d) s with
    | error e =>
      rw [update_of_tune_error q client d s e ht]
      exact ⟨hid, hpath⟩
    | ok s1 =>
      rw [update_of_tune_ok q client d s s1 ht]
      exact read_keeps_no_trailing_slash q client d s1 hid hpath
  · intro id mounts mount hl hf
    rw [read_of_found q client (ResourceData.imported id) s mounts mount hl hf]
    exact ⟨rfl, rfl⟩

/-- C9, amended, at the acceptance test: the create of "ssh-test" leaves an
identity and a path attribute without a trailing slash. -/
theorem slash_invariant_witness :
    hasSuffix (secretBackendCreate quotePlain registryClient
        (ResourceData.ofConfig (basicConfig "ssh-test")) Registry.empty).d.id "/" = false ∧
      hasSuffix (secretBackendCreate quotePlain registryClient
        (ResourceData.ofConfig (basicConfig "ssh-test")) Registry.empty).d.path "/" = false :=
  (slash_invariant quotePlain registryClient
    (ResourceData.ofConfig (basicConfig "ssh-test")) Registry.empty).2.2.2.1
    (by decide) (by decide)

end Vault
